import Mathlib

/-!
Shallow embedding of the `canva-indexer` core (pixel codec & validator,
state store, ingestion pipeline, resize controller) and proofs about the
frozen claims.  Every definition is translated from the Rust source under
`src/canva-indexer/src/`; the file and line of the source is given on each
definition.  Machine integers are modelled as `Nat`/`Int`, with an explicit
`% 2 ^ 64` where the source's `u64` arithmetic wraps.
-/

set_option autoImplicit false

deriving instance DecidableEq for Except

namespace PubkyCanva

/-- Pixel payload `{x, y, color}` (`pixel.rs` 23-28, struct `CanvaPixel`;
`x`, `y` are `u32` and `color` is `u8` in the source, modelled as `Nat`). -/
structure CanvaPixel where
  x : Nat
  y : Nat
  color : Nat
deriving Repr, DecidableEq

/-- The distinct error branches of `CanvaPixel::validate` (`pixel.rs` 31-69).
The source returns `Err(String)` with a distinct message per branch; the
messages are embedded as constructors. -/
inductive ValidateError where
  | invalidColor
  | outOfBounds
  | preExpansionPlacement
  | coordinateUncovered
deriving Repr, DecidableEq

/-- The resize-history walk of `CanvaPixel::validate` (`pixel.rs` 53-63):
`for &(size, activated_at) in resize_history { if size >= required_size {
if timestamp < activated_at { return Err(...) } return Ok(()) } }` followed
by the fall-through `Err` (`pixel.rs` 65-68). -/
def validateLoop (required : Nat) (timestamp : Int) :
    List (Nat × Int) → Except ValidateError Unit
  | [] => .error .coordinateUncovered
  | (size, activated_at) :: rest =>
    if size ≥ required then
      if timestamp < activated_at then .error .preExpansionPlacement
      else .ok ()
    else validateLoop required timestamp rest

/-- `CanvaPixel::validate` (`pixel.rs` 31-69).  Checks, in order: the color
range (`pixel.rs` 37), the bounds of both coordinates against the single
`canvas_size` argument (`pixel.rs` 44), then the anti-backdating walk over
`resize_history` with `required_size = x.max(y) + 1` (`pixel.rs` 52-68).
Note the `u32` addition in `required_size` cannot overflow on inputs that
pass the bounds check, so plain `Nat` addition is faithful there. -/
def CanvaPixel.validate (p : CanvaPixel) (canvas_size : Nat)
    (resize_history : List (Nat × Int)) (timestamp : Int) :
    Except ValidateError Unit :=
  if p.color > 15 then .error .invalidColor
  else if p.x ≥ canvas_size ∨ p.y ≥ canvas_size then .error .outOfBounds
  else validateLoop (max p.x p.y + 1) timestamp resize_history

/-- `crockford_char_value` (`pixel.rs` 93-129): Crockford-Base32 value of a
character, after `to_ascii_uppercase` (Lean's `Char.toUpper` likewise
upper-cases exactly the ASCII letters `a`-`z`). -/
def crockford_char_value (c : Char) : Option Nat :=
  match c.toUpper with
  | '0' | 'O' => .some 0
  | '1' | 'I' | 'L' => .some 1
  | '2' => .some 2
  | '3' => .some 3
  | '4' => .some 4
  | '5' => .some 5
  | '6' => .some 6
  | '7' => .some 7
  | '8' => .some 8
  | '9' => .some 9
  | 'A' => .some 10
  | 'B' => .some 11
  | 'C' => .some 12
  | 'D' => .some 13
  | 'E' => .some 14
  | 'F' => .some 15
  | 'G' => .some 16
  | 'H' => .some 17
  | 'J' => .some 18
  | 'K' => .some 19
  | 'M' => .some 20
  | 'N' => .some 21
  | 'P' => .some 22
  | 'Q' => .some 23
  | 'R' => .some 24
  | 'S' => .some 25
  | 'T' => .some 26
  | 'V' => .some 27
  | 'W' => .some 28
  | 'X' => .some 29
  | 'Y' => .some 30
  | 'Z' => .some 31
  | _ => .none

/-- One step of the decode loop of `parse_timestamp_id` (`pixel.rs` 83-88):
`value = (value << 5) | digit as u64` on a `u64` accumulator.  The `u64`
shift wraps, hence the explicit `% 2 ^ 64`; the subsequent bitwise or with
`digit < 32` touches only the five low (zero) bits. -/
def crockfordStep (v d : Nat) : Nat :=
  ((v <<< 5) % 18446744073709551616) ||| d

/-- The decode loop of `parse_timestamp_id` over the characters of the id,
failing on the first invalid character (`pixel.rs` 84-88). -/
def crockfordDecode (v : Nat) : List Char → Option Nat
  | [] => some v
  | c :: cs =>
    match crockford_char_value c with
    | none => none
    | some d => crockfordDecode (crockfordStep v d) cs

/-- Reinterpretation of the final `u64` accumulator as `i64`
(`pixel.rs` 90, `Ok(value as i64)`). -/
def u64_to_i64 (v : Nat) : Int :=
  if v < 9223372036854775808 then (v : Int)
  else (v : Int) - 18446744073709551616

/-- `parse_timestamp_id` (`pixel.rs` 75-91): length must be 13, then the
Crockford decode loop, then the `i64` reinterpretation.  The source checks
the byte length while `String.length` counts characters; the two lengths
agree on all-ASCII strings, and every non-ASCII character is rejected by
`crockford_char_value` anyway, so success/failure coincide. The source's
two `Err(String)` messages are collapsed into `none`. -/
def parse_timestamp_id (id : String) : Option Int :=
  if id.length ≠ 13 then none
  else (crockfordDecode 0 id.toList).map u64_to_i64

/-- `validate_timestamp` (`pixel.rs` 139-154).  The source reads the wall
clock via `timestamp_micros()`; here `now` is an explicit parameter.  The
source's `Err` message strings are kept verbatim. -/
def validate_timestamp (timestamp : Int) (now : Int) : Except String Unit :=
  if timestamp > now + 2 * 60 * 1000000 then
    .error "Timestamp is too far in the future"
  else if timestamp < 1727740800000000 then
    .error "Timestamp is before October 1st, 2024"
  else .ok ()

/-- The Crockford value of a character known to be valid (`getD 0` is
never taken on valid ids). -/
def crockfordNatValue (c : Char) : Nat :=
  (crockford_char_value c).getD 0

/-- The exact (unwrapped) big-endian base-32 value of a character list:
`Σ value(cᵢ) · 32^(n-1-i)`, as a left fold. -/
def base32Value (l : List Char) : Nat :=
  l.foldl (fun v c => v * 32 + crockfordNatValue c) 0

/-- A row of the `pixel_events` table (`db.rs` 22-30). -/
structure PixelEventRow where
  id : String
  user_pk : String
  x : Nat
  y : Nat
  color : Nat
  placed_at : Int
deriving Repr, DecidableEq

/-- A row of the `canvas_state` table minus its `(x, y)` key
(`db.rs` 34-43).  `was_overwritten` is an SQLite `INTEGER` written as 0 or
1 and read back as `i32` (`db.rs` 215-221), modelled as `Nat`. -/
structure CellData where
  color : Nat
  user_pk : String
  first_user_pk : String
  placed_at : Int
  was_overwritten : Nat
deriving Repr, DecidableEq

/-- The mutable store relevant to `insert_pixel`: the `pixel_events` rows
and the `canvas_state` table keyed by `(x, y)` (primary key, `db.rs` 42). -/
structure StoreState where
  pixel_events : List PixelEventRow
  canvas : Nat → Nat → Option CellData

def emptyStore : StoreState := ⟨[], fun _ _ => none⟩

/-- Point update of the `canvas_state` table at key `(x, y)`. -/
def canvasSet (canvas : Nat → Nat → Option CellData) (x y : Nat)
    (d : CellData) : Nat → Nat → Option CellData :=
  fun a b => if a = x ∧ b = y then some d else canvas a b

/-- `count_recent_placements` (`db.rs` 168-182): `cutoff = timestamp -
regen_us`, then `COUNT(*) ... WHERE user_pk = ?1 AND placed_at > ?2 AND
placed_at <= ?3` over `pixel_events`. -/
def count_recent_placements (events : List PixelEventRow) (user_pk : String)
    (timestamp regen_us : Int) : Nat :=
  (events.filter fun e =>
    e.user_pk == user_pk && decide (e.placed_at > timestamp - regen_us)
      && decide (e.placed_at ≤ timestamp)).length

/-- `pixel_event_exists` (`db.rs` 185-193): `COUNT(*) ... WHERE id = ?1 > 0`. -/
def pixel_event_exists (events : List PixelEventRow) (id : String) : Bool :=
  events.any fun e => e.id == id

/-- `insert_pixel` (`db.rs` 197-246), happy path: append the
`pixel_events` row, look up the cell, then either create it
(`first_user_pk = user_pk`, `was_overwritten = 0`, returning
`(true, false)`) or update `color`, `user_pk`, `placed_at` and
`was_overwritten` (returning `(false, newly_overwritten)`). -/
def insert_pixel (st : StoreState) (id user_pk : String) (x y color : Nat)
    (placed_at : Int) : StoreState × Bool × Bool :=
  let events' := st.pixel_events ++ [⟨id, user_pk, x, y, color, placed_at⟩]
  match st.canvas x y with
  | none =>
    (⟨events', canvasSet st.canvas x y ⟨color, user_pk, user_pk, placed_at, 0⟩⟩,
      true, false)
  | some cell =>
    let newly_overwritten := cell.was_overwritten == 0 && cell.first_user_pk != user_pk
    let ow_val : Nat := if newly_overwritten || cell.was_overwritten != 0 then 1 else 0
    (⟨events',
      canvasSet st.canvas x y
        ⟨color, user_pk, cell.first_user_pk, placed_at, ow_val⟩⟩,
      false, newly_overwritten)

/-- `insert_pixel` (`db.rs` 197-246) with the failure behaviour of its
SQL statements made explicit.  The function body runs three statements in
order — `INSERT INTO pixel_events` (`db.rs` 209-212), the `SELECT` on
`canvas_state` (`db.rs` 215-221), and the `INSERT`/`UPDATE` on
`canvas_state` (`db.rs` 226-229 / 239-242) — each as its own implicit
SQLite transaction, with no enclosing transaction; an `Err` from statement
`n` (injected here by `fail n = true`) propagates via `?` and leaves the
effects of the earlier statements committed. -/
def insert_pixel_sql (fail : Nat → Bool) (st : StoreState)
    (id user_pk : String) (x y color : Nat) (placed_at : Int) :
    StoreState × Except Unit (Bool × Bool) :=
  if fail 0 then (st, .error ())
  else
    let st1 : StoreState :=
      { st with pixel_events := st.pixel_events ++ [⟨id, user_pk, x, y, color, placed_at⟩] }
    if fail 1 then (st1, .error ())
    else
      match st1.canvas x y with
      | none =>
        if fail 2 then (st1, .error ())
        else
          ({ st1 with
              canvas := canvasSet st1.canvas x y ⟨color, user_pk, user_pk, placed_at, 0⟩ },
            .ok (true, false))
      | some cell =>
        let newly_overwritten := cell.was_overwritten == 0 && cell.first_user_pk != user_pk
        let ow_val : Nat := if newly_overwritten || cell.was_overwritten != 0 then 1 else 0
        if fail 2 then (st1, .error ())
        else
          ({ st1 with
              canvas := canvasSet st1.canvas x y
                ⟨color, user_pk, cell.first_user_pk, placed_at, ow_val⟩ },
            .ok (false, newly_overwritten))

/-- Arguments of one `insert_pixel` call, for reasoning about sequences of
commits. -/
structure Commit where
  id : String
  user_pk : String
  x : Nat
  y : Nat
  color : Nat
  placed_at : Int
deriving Repr, DecidableEq

/-- Fold a sequence of `insert_pixel` calls over the store. -/
def applyCommits (st : StoreState) : List Commit → StoreState
  | [] => st
  | e :: rest =>
    applyCommits (insert_pixel st e.id e.user_pk e.x e.y e.color e.placed_at).1 rest

/-- The configuration fields the watcher reads (`config.rs`, used at
`watcher.rs` 278 and 288): `canvas.max_credits : u32` and
`canvas.credit_regen_seconds : u64`. -/
structure Config where
  max_credits : Nat
  credit_regen_seconds : Nat
deriving Repr, DecidableEq

/-- The per-event failure cases of `process_pixel_event`
(`watcher.rs` 222-324).  The source returns `anyhow::Error` built from a
distinct message per branch; `storeUnavailable` stands for an error
propagated with `?` out of a State Store call (`db.rs` via
`spawn_blocking`). -/
inductive ProcErr where
  | invalidId
  | invalidTimestamp
  | fetchFailed
  | invalidPayload
  | validationFailed
  | noCredits
  | storeUnavailable
deriving Repr, DecidableEq

/-- `process_pixel_event` (`watcher.rs` 222-324).

* The dedupe check (`watcher.rs` 231-239) consults `pixel_event_exists`
  and returns `Ok(())` when the id is already present.
* ID decode and timestamp validation (`watcher.rs` 241-247) use the
  `pixel.rs` functions embedded above; `now` is the wall clock read inside
  `validate_timestamp`.
* The blob fetch plus JSON decode (`watcher.rs` 249-259) are network
  effects, passed in as `fetched` (an error stands for the source's
  `FetchFailed`/`InvalidPayload` branches).
* The payload-validation call (`watcher.rs` 272-275) is written
  `pixel.validate(canvas_width, canvas_height, &resize_history, timestamp)`
  — four arguments — while `pixel.rs` declares a three-argument
  `validate`; the crate as given does not type-check, so the validation
  step is embedded parametrically as `vf`.
* The credit check (`watcher.rs` 277-295) computes
  `regen_us = credit_regen_seconds as i64 * 1_000_000` and fails when
  `recent_count >= max_credits`.
* On success the commit (`watcher.rs` 297-307) is `insert_pixel`. -/
def process_pixel_event (st : StoreState) (cfg : Config)
    (vf : CanvaPixel → Int → Except ValidateError Unit)
    (fetched : Except ProcErr CanvaPixel)
    (user_pk pixel_id : String) (now : Int) :
    Except ProcErr StoreState :=
  if pixel_event_exists st.pixel_events pixel_id then .ok st
  else
    match parse_timestamp_id pixel_id with
    | none => .error .invalidId
    | some timestamp =>
      match validate_timestamp timestamp now with
      | .error _ => .error .invalidTimestamp
      | .ok _ =>
        match fetched with
        | .error e => .error e
        | .ok pixel =>
          match vf pixel timestamp with
          | .error _ => .error .validationFailed
          | .ok _ =>
            let regen_us : Int := (cfg.credit_regen_seconds : Int) * 1000000
            let recent_count :=
              count_recent_placements st.pixel_events user_pk timestamp regen_us
            if recent_count ≥ cfg.max_credits then .error .noCredits
            else .ok (insert_pixel st pixel_id user_pk pixel.x pixel.y pixel.color timestamp).1

/-- `update_user_cursor` (`db.rs` 157-164), on cursors as a map from user
public key to cursor string. -/
def update_user_cursor (cursors : String → String) (user_pk cursor : String) :
    String → String :=
  fun k => if k = user_pk then cursor else cursors k

/-- Rust `str::strip_prefix` on character lists (first argument is the
pattern): `some` of the remainder when the pattern is a prefix. -/
def dropPre : List Char → List Char → Option (List Char)
  | [], s => some s
  | _ :: _, [] => none
  | p :: ps, c :: cs => if c = p then dropPre ps cs else none

/-- Rust `str::split_once` on character lists: split at the first
occurrence of `sep`, `none` when `sep` does not occur. -/
def split_once (sep : Char) : List Char → Option (List Char × List Char)
  | [] => none
  | c :: cs =>
    if c = sep then some ([], cs)
    else (split_once sep cs).map fun p => (c :: p.1, p.2)

/-- `parse_pixel_uri` (`watcher.rs` 212-220): strip `pubky://`, split at
the first `/`, strip `pub/pubky-canva/pixels/`, require a non-empty id. -/
def parse_pixel_uri (uri : String) : Option (String × String) :=
  match dropPre "pubky://".toList uri.toList with
  | none => none
  | some rest =>
    match split_once '/' rest with
    | none => none
    | some (user_pk, path) =>
      match dropPre "pub/pubky-canva/pixels/".toList path with
      | none => none
      | some pixel_id =>
        if pixel_id.isEmpty then none
        else some (String.mk user_pk, String.mk pixel_id)

/-- One parsed SSE event (`watcher.rs` 159-164, struct `SseEventParsed`). -/
structure SseEventParsed where
  event_type : String
  uri : String
  cursor : String
deriving Repr, DecidableEq

/-- The per-event body of the loop in `poll_homeserver`
(`watcher.rs` 128-154), restricted to its effect on the user cursors.
Non-`PUT` events and unparsable or untracked URIs are skipped
(`watcher.rs` 129-138).  For a processed event the result of
`process_pixel_event` is pattern-matched only to log
(`watcher.rs` 140-143: `Ok(()) => {}` and `Err(e) => warn!(...)`), and
then — in either arm's continuation — the cursor is updated whenever
`event.cursor` is non-empty (`watcher.rs` 145-152). -/
def poll_events_step (proc : String → String → Except ProcErr Unit)
    (users : List (String × String)) (cursors : String → String)
    (ev : SseEventParsed) : String → String :=
  if ev.event_type ≠ "PUT" then cursors
  else
    match parse_pixel_uri ev.uri with
    | none => cursors
    | some (user_pk, pixel_id) =>
      if users.any (fun p => p.1 == user_pk) then
        match proc user_pk pixel_id with
        | .ok _ =>
          if ev.cursor ≠ "" then update_user_cursor cursors user_pk ev.cursor
          else cursors
        | .error _ =>
          if ev.cursor ≠ "" then update_user_cursor cursors user_pk ev.cursor
          else cursors
      else cursors

/-- The whole event loop of `poll_homeserver` (`watcher.rs` 128-154), as a
fold of `poll_events_step` over the parsed events. -/
def poll_homeserver_cursors (proc : String → String → Except ProcErr Unit)
    (users : List (String × String)) (events : List SseEventParsed)
    (cursors : String → String) : String → String :=
  events.foldl (poll_events_step proc users) cursors

/-- The resize decision of `check_resize` (`watcher.rs` 326-359):
`total = W * H`, `half = total / 2`; when `filled >= total &&
overwritten >= half`, the next size is `(W * 2, H)` if `W == H` and
`(W, H * 2)` otherwise.  (`total_pixels` is a `u32` product; its overflow
would require canvas dimensions of 65536×65536, which Rust declares a
program error — debug builds panic — so plain `Nat` product is used.) -/
def check_resize (canvas_width canvas_height filled overwritten : Nat) :
    Option (Nat × Nat) :=
  let total_pixels := canvas_width * canvas_height
  let half_pixels := total_pixels / 2
  if filled ≥ total_pixels ∧ overwritten ≥ half_pixels then
    some
      (if canvas_width = canvas_height then (canvas_width * 2, canvas_height)
       else (canvas_width, canvas_height * 2))
  else none

/-- The effect of one `check_resize` poll cycle on the `canvas_resizes`
table (`watcher.rs` 344-369 together with `resize_canvas`,
`db.rs` 265-272): append one `(width, height, activated_at)` record when
the resize triggers, otherwise leave the history unchanged. -/
def check_resize_cycle (canvas_width canvas_height filled overwritten : Nat)
    (now : Int) (history : List (Nat × Nat × Int)) : List (Nat × Nat × Int) :=
  match check_resize canvas_width canvas_height filled overwritten with
  | none => history
  | some (nw, nh) => history ++ [(nw, nh, now)]

theorem lor_two_pow_mul_add : ∀ (k a b : Nat), b < 2 ^ k → 2 ^ k * a ||| b = 2 ^ k * a + b := by
  intro k
  induction k with
  | zero =>
    intro a b hb
    have hb0 : b = 0 := by omega
    subst hb0
    simp
  | succ k ih =>
    intro a b hb
    have hb2 : b / 2 < 2 ^ k := by omega
    have h1 : 2 ^ (k + 1) * a = Nat.bit false (2 ^ k * a) := by
      simp [Nat.bit]
      ring
    have h2 : b = Nat.bit (b % 2 = 1) (b / 2) := by
      simp [Nat.bit]
      rcases Nat.mod_two_eq_zero_or_one b with h | h <;> simp [h] <;> omega
    rw [h1, h2, Nat.lor_bit, ih _ _ hb2]
    simp [Nat.bit]
    rcases Nat.mod_two_eq_zero_or_one b with h | h <;> simp [h] <;> ring_nf

theorem crockfordStep_eq (v d : Nat) (hd : d < 32) :
    crockfordStep v d = (v * 32 + d) % 18446744073709551616 := by
  have h1 : v <<< 5 = v * 32 := by
    rw [Nat.shiftLeft_eq]
  have h2 : v * 32 % 18446744073709551616 = 32 * (v % 576460752303423488) := by
    rw [Nat.mul_comm v 32,
      show (18446744073709551616 : Nat) = 32 * 576460752303423488 by norm_num,
      Nat.mul_mod_mul_left]
  have h3 : 32 * (v % 576460752303423488) ||| d = 32 * (v % 576460752303423488) + d := by
    have h := lor_two_pow_mul_add 5 (v % 576460752303423488) d (by omega)
    simpa using h
  unfold crockfordStep
  rw [h1, h2, h3]
  omega

theorem crockford_char_value_lt (c : Char) (d : Nat)
    (h : crockford_char_value c = some d) : d < 32 := by
  unfold crockford_char_value at h
  split at h <;> simp_all <;> omega

theorem crockfordDecode_eq_none_iff : ∀ (l : List Char) (v : Nat),
    crockfordDecode v l = none ↔ ∃ c ∈ l, crockford_char_value c = none := by
  intro l
  induction l with
  | nil => intro v; simp [crockfordDecode]
  | cons c cs ih =>
    intro v
    simp only [crockfordDecode]
    cases hc : crockford_char_value c with
    | none =>
      exact iff_of_true rfl ⟨c, List.mem_cons_self c cs, hc⟩
    | some d =>
      rw [ih]
      constructor
      · rintro ⟨a, ha, hna⟩
        exact ⟨a, List.mem_cons_of_mem c ha, hna⟩
      · rintro ⟨a, ha, hna⟩
        rcases List.mem_cons.mp ha with rfl | ha'
        · exact absurd hna (by simp [hc])
        · exact ⟨a, ha', hna⟩

theorem foldl_mul32_mod (cs : List Char) : ∀ a b : Nat,
    a % 18446744073709551616 = b % 18446744073709551616 →
    (cs.foldl (fun v c => v * 32 + crockfordNatValue c) a) % 18446744073709551616
      = (cs.foldl (fun v c => v * 32 + crockfordNatValue c) b) % 18446744073709551616 := by
  induction cs with
  | nil => intro a b h; simpa using h
  | cons c cs ih =>
    intro a b h
    simp only [List.foldl_cons]
    exact ih _ _ (Nat.ModEq.add_right _ (Nat.ModEq.mul_right 32 h))

theorem crockfordDecode_valid : ∀ (l : List Char) (v : Nat),
    (∀ c ∈ l, crockford_char_value c ≠ none) → v < 18446744073709551616 →
    crockfordDecode v l
      = some ((l.foldl (fun a c => a * 32 + crockfordNatValue c) v)
          % 18446744073709551616) := by
  intro l
  induction l with
  | nil =>
    intro v _ hv
    simp [crockfordDecode, Nat.mod_eq_of_lt hv]
  | cons c cs ih =>
    intro v hval hv
    obtain ⟨d, hd⟩ : ∃ d, crockford_char_value c = some d := by
      cases hcc : crockford_char_value c with
      | none => exact absurd hcc (hval c (List.mem_cons_self c cs))
      | some d => exact ⟨d, rfl⟩
    have hd32 := crockford_char_value_lt c d hd
    simp only [crockfordDecode, hd, List.foldl_cons]
    rw [crockfordStep_eq v d hd32]
    rw [ih ((v * 32 + d) % 18446744073709551616)
      (fun a ha => hval a (List.mem_cons_of_mem c ha))
      (Nat.mod_lt _ (by norm_num))]
    have hcv : crockfordNatValue c = d := by simp [crockfordNatValue, hd]
    rw [hcv]
    exact congrArg some (foldl_mul32_mod cs _ _ (by omega))

/-- C9: the timestamp-ID decoder fails if and only if the string's length
is not 13 or some character is not a valid Crockford-Base32 character;
decoding is case-insensitive, maps digits 0-9 to 0-9 and the 22 normal
letters to 10-31 (the 32-symbol alphabet, which excludes I, L, O, U),
with I and L decoding as 1, O decoding as 0, and U always invalid. -/
theorem claim_c9_decoder :
    (∀ id : String, parse_timestamp_id id = none
      ↔ (id.length ≠ 13 ∨ ∃ c ∈ id.toList, crockford_char_value c = none))
    ∧ (∀ p ∈ ("abcdefghijklmnopqrstuvwxyz".toList.zip
        "ABCDEFGHIJKLMNOPQRSTUVWXYZ".toList),
        crockford_char_value p.1 = crockford_char_value p.2)
    ∧ (∀ i ∈ List.range 32,
        crockford_char_value ("0123456789ABCDEFGHJKMNPQRSTVWXYZ".toList.getD i '?')
          = some i)
    ∧ crockford_char_value 'I' = some 1 ∧ crockford_char_value 'L' = some 1
    ∧ crockford_char_value 'O' = some 0 ∧ crockford_char_value 'U' = none := by
  refine ⟨?_, by decide, by decide, by decide, by decide, by decide, by decide⟩
  intro id
  unfold parse_timestamp_id
  by_cases hlen : id.length = 13
  · rw [if_neg (by simp [hlen])]
    rw [Option.map_eq_none']
    rw [crockfordDecode_eq_none_iff]
    simp [hlen]
  · rw [if_pos hlen]
    simp [hlen]

theorem claim_c9_decoder_witness :
    parse_timestamp_id "U000000000000" = none
    ∧ crockford_char_value 'i' = crockford_char_value 'I' :=
  ⟨(claim_c9_decoder.1 "U000000000000").mpr
      (Or.inr ⟨'U', by decide, by decide⟩),
    claim_c9_decoder.2.1 ('i', 'I') (by decide)⟩

/-- C10: on every 13-character string of valid Crockford characters the
decoder returns the 65-bit big-endian base-32 value reduced modulo
`2 ^ 64` and reinterpreted as a signed 64-bit integer; the distinct valid
IDs `G000000000000` (value `2 ^ 64`) and `0000000000000` (value 0) decode
to the same timestamp because the first character's high bit is
discarded. -/
theorem claim_c10_decode_value :
    (∀ id : String, id.length = 13 →
      (∀ c ∈ id.toList, crockford_char_value c ≠ none) →
      parse_timestamp_id id
        = some (u64_to_i64 (base32Value id.toList % 18446744073709551616)))
    ∧ parse_timestamp_id "G000000000000" = parse_timestamp_id "0000000000000"
    ∧ "G000000000000" ≠ "0000000000000"
    ∧ base32Value "G000000000000".toList ≠ base32Value "0000000000000".toList := by
  refine ⟨?_, by decide, by decide, by decide⟩
  intro id hlen hval
  unfold parse_timestamp_id
  rw [if_neg (by simp [hlen])]
  rw [crockfordDecode_valid id.toList 0 hval (by norm_num)]
  rfl

theorem claim_c10_decode_value_witness :
    ("0000000000000" : String).length = 13
    ∧ parse_timestamp_id "0000000000000"
        = some (u64_to_i64 (base32Value "0000000000000".toList
            % 18446744073709551616)) :=
  ⟨by decide, claim_c10_decode_value.1 "0000000000000" (by decide) (by decide)⟩

theorem validate_eval_parts (x y color s : Nat) (hist : List (Nat × Int)) (ts : Int) :
    CanvaPixel.validate ⟨x, y, color⟩ s hist ts
      = if color > 15 then .error .invalidColor
        else if x ≥ s ∨ y ≥ s then .error .outOfBounds
        else validateLoop (max x y + 1) ts hist := rfl

theorem validateLoop_find (required : Nat) (ts : Int) :
    ∀ l : List (Nat × Nat × Int),
      (l.find? (fun r => decide (required ≤ max r.1 r.2.1)) = none →
        validateLoop required ts (l.map fun r => (max r.1 r.2.1, r.2.2))
          = .error .coordinateUncovered)
      ∧ ∀ r, l.find? (fun r => decide (required ≤ max r.1 r.2.1)) = some r →
          validateLoop required ts (l.map fun r => (max r.1 r.2.1, r.2.2))
            = if ts < r.2.2 then .error .preExpansionPlacement else .ok () := by
  intro l
  induction l with
  | nil => exact ⟨fun _ => rfl, fun r hr => by simp at hr⟩
  | cons a l ih =>
    by_cases hc : required ≤ max a.1 a.2.1
    · constructor
      · intro hnone
        rw [List.find?_cons_of_pos _ (by simpa using hc)] at hnone
        exact absurd hnone (by simp)
      · intro r hr
        rw [List.find?_cons_of_pos _ (by simpa using hc)] at hr
        obtain rfl : a = r := by simpa using hr
        simp only [List.map_cons, validateLoop, if_pos hc]
    · constructor
      · intro hnone
        rw [List.find?_cons_of_neg _ (by simpa using hc)] at hnone
        simpa [List.map_cons, validateLoop, hc] using (ih.1 hnone)
      · intro r hr
        rw [List.find?_cons_of_neg _ (by simpa using hc)] at hr
        simpa [List.map_cons, validateLoop, hc] using (ih.2 r hr)

/-- C2: for a payload that passes the color and bounds checks and a resize
history ordered ascending by `activated_at`, the validator — fed each
record's `max(width, height)` as its single per-record size, the claim's
covering criterion — fails `CoordinateUncovered` when no record covers
`required = max(x, y) + 1`, and otherwise accepts iff the timestamp is at
least the `activated_at` of the first (hence chronologically first)
covering record, failing `PreExpansionPlacement` iff the timestamp is
smaller. -/
theorem claim_c2_anti_backdating (p : CanvaPixel) (canvas_size : Nat)
    (history : List (Nat × Nat × Int)) (timestamp : Int)
    (hcolor : p.color ≤ 15) (hx : p.x < canvas_size) (hy : p.y < canvas_size)
    (_hsorted : history.Pairwise (fun a b => a.2.2 ≤ b.2.2)) :
    (history.find? (fun r => decide (max p.x p.y + 1 ≤ max r.1 r.2.1)) = none →
      p.validate canvas_size (history.map fun r => (max r.1 r.2.1, r.2.2)) timestamp
        = .error .coordinateUncovered)
    ∧ ∀ r, history.find? (fun r => decide (max p.x p.y + 1 ≤ max r.1 r.2.1)) = some r →
        (p.validate canvas_size (history.map fun r => (max r.1 r.2.1, r.2.2)) timestamp
            = .ok () ↔ r.2.2 ≤ timestamp)
        ∧ (p.validate canvas_size (history.map fun r => (max r.1 r.2.1, r.2.2)) timestamp
            = .error .preExpansionPlacement ↔ timestamp < r.2.2) := by
  have hval : p.validate canvas_size (history.map fun r => (max r.1 r.2.1, r.2.2)) timestamp
      = validateLoop (max p.x p.y + 1) timestamp
          (history.map fun r => (max r.1 r.2.1, r.2.2)) := by
    unfold CanvaPixel.validate
    rw [if_neg (by omega), if_neg (by omega)]
  constructor
  · intro hnone
    rw [hval]
    exact (validateLoop_find _ _ history).1 hnone
  · intro r hr
    rw [hval, (validateLoop_find _ _ history).2 r hr]
    constructor
    · constructor
      · intro h
        by_contra hlt
        rw [if_pos (by omega)] at h
        exact absurd h (by simp)
      · intro h
        rw [if_neg (by omega)]
    · constructor
      · intro h
        by_contra hge
        rw [if_neg (by omega)] at h
        exact absurd h (by simp)
      · intro h
        rw [if_pos h]

theorem claim_c2_anti_backdating_witness :
    ([(16, 16, 0), (32, 16, 100)] : List (Nat × Nat × Int)).find?
        (fun r => decide (max 20 5 + 1 ≤ max r.1 r.2.1)) = some (32, 16, 100)
    ∧ (CanvaPixel.validate ⟨20, 5, 3⟩ 33
          ([(16, 16, 0), (32, 16, 100)].map fun r => (max r.1 r.2.1, r.2.2)) 100
        = .ok () ↔ (100 : Int) ≤ 100)
    ∧ (CanvaPixel.validate ⟨20, 5, 3⟩ 33
          ([(16, 16, 0), (32, 16, 100)].map fun r => (max r.1 r.2.1, r.2.2)) 100
        = .error .preExpansionPlacement ↔ (100 : Int) < 100) :=
  ⟨by decide,
    (claim_c2_anti_backdating ⟨20, 5, 3⟩ 33 [(16, 16, 0), (32, 16, 100)] 100
      (by decide) (by decide) (by decide)
      (by simp)).2 (32, 16, 100) (by decide)⟩

theorem validate_single_size_dilemma (s : Nat)
    (h1 : CanvaPixel.validate ⟨20, 5, 0⟩ s [(4294967295, 0)] 0 = .ok ()) :
    CanvaPixel.validate ⟨0, 16, 0⟩ s [(4294967295, 0)] 0 = .ok () := by
  have hs : 21 ≤ s := by
    by_contra hlt
    have hb : CanvaPixel.validate ⟨20, 5, 0⟩ s [(4294967295, 0)] 0
        = .error .outOfBounds := by
      rw [validate_eval_parts, if_neg (by omega), if_pos (by omega)]
    rw [hb] at h1
    exact absurd h1 (by simp)
  rw [validate_eval_parts, if_neg (by omega), if_neg (by omega)]
  decide

/-- C5: the claim requires the bounds check to compare `x` against the
canvas width and `y` against the canvas height independently; the source's
`CanvaPixel::validate` compares both coordinates against its single
`canvas_size` argument.  For the post-first-resize 32×16 canvas the claim
accepts `{x:20, y:5}` and rejects `{x:0, y:16}` as out of bounds, but the
single-size check cannot do both: fed size 16 it rejects `{x:20, y:5}`
(and `{x:0, y:16}`), fed size 32 it accepts `{x:0, y:16}` (and
`{x:20, y:5}`) — see `validate_single_size_dilemma` for the general
statement that any size accepting `{x:20, y:5}` accepts `{x:0, y:16}`.
(The record `(4294967295, 0)` covers every coordinate, isolating the
bounds check.) -/
theorem claim_c5_single_size_bounds :
    CanvaPixel.validate ⟨20, 5, 0⟩ 16 [(4294967295, 0)] 0 = .error .outOfBounds
    ∧ CanvaPixel.validate ⟨0, 16, 0⟩ 16 [(4294967295, 0)] 0 = .error .outOfBounds
    ∧ CanvaPixel.validate ⟨20, 5, 0⟩ 32 [(4294967295, 0)] 0 = .ok ()
    ∧ CanvaPixel.validate ⟨0, 16, 0⟩ 32 [(4294967295, 0)] 0 = .ok () :=
  ⟨by decide, by decide, by decide, by decide⟩

theorem insert_pixel_canvas_ne (st : StoreState) (id u : String)
    (a b c : Nat) (t : Int) (x y : Nat) (h : ¬ (x = a ∧ y = b)) :
    (insert_pixel st id u a b c t).1.canvas x y = st.canvas x y := by
  unfold insert_pixel canvasSet
  cases hcv : st.canvas a b <;> simp [h]

theorem insert_pixel_canvas_new (st : StoreState) (id u : String)
    (a b c : Nat) (t : Int) (h : st.canvas a b = none) :
    (insert_pixel st id u a b c t).1.canvas a b = some ⟨c, u, u, t, 0⟩ := by
  unfold insert_pixel canvasSet
  rw [h]
  simp

theorem insert_pixel_canvas_upd (st : StoreState) (id u : String)
    (a b c : Nat) (t : Int) (cell : CellData) (h : st.canvas a b = some cell) :
    (insert_pixel st id u a b c t).1.canvas a b
      = some ⟨c, u, cell.first_user_pk, t,
          if (cell.was_overwritten == 0 && cell.first_user_pk != u)
             || cell.was_overwritten != 0 then 1 else 0⟩ := by
  unfold insert_pixel canvasSet
  rw [h]
  simp

theorem applyCommits_preserve : ∀ (l : List Commit) (st : StoreState)
    (x y : Nat) (cell : CellData), st.canvas x y = some cell →
    ∃ cell', (applyCommits st l).canvas x y = some cell'
      ∧ cell'.first_user_pk = cell.first_user_pk
      ∧ (cell.was_overwritten ≠ 0 → cell'.was_overwritten ≠ 0) := by
  intro l
  induction l with
  | nil => exact fun st x y cell h => ⟨cell, h, rfl, fun hz => hz⟩
  | cons e rest ih =>
    intro st x y cell h
    rw [applyCommits]
    by_cases hm : x = e.x ∧ y = e.y
    · obtain ⟨rfl, rfl⟩ := hm
      have hstep := insert_pixel_canvas_upd st e.id e.user_pk e.x e.y e.color e.placed_at cell h
      obtain ⟨cell', hc', hfirst, how⟩ := ih _ e.x e.y _ hstep
      refine ⟨cell', hc', by simpa using hfirst, fun hnz => how ?_⟩
      have hb : (cell.was_overwritten != 0) = true := by simpa using hnz
      simp [hb]
    · have hstep := insert_pixel_canvas_ne st e.id e.user_pk e.x e.y e.color e.placed_at x y hm
      exact ih _ x y cell (hstep.trans h)

theorem applyCommits_first_author : ∀ (l : List Commit) (st : StoreState)
    (x y : Nat) (cell : CellData), st.canvas x y = none →
    (applyCommits st l).canvas x y = some cell →
    ∃ e, l.find? (fun e => e.x == x && e.y == y) = some e
      ∧ cell.first_user_pk = e.user_pk := by
  intro l
  induction l with
  | nil =>
    intro st x y cell h0 h
    rw [applyCommits] at h
    rw [h0] at h
    exact absurd h (by simp)
  | cons e rest ih =>
    intro st x y cell h0 h
    rw [applyCommits] at h
    by_cases hm : x = e.x ∧ y = e.y
    · obtain ⟨rfl, rfl⟩ := hm
      have hstep := insert_pixel_canvas_new st e.id e.user_pk e.x e.y e.color e.placed_at h0
      obtain ⟨cell', hc', hfirst, _⟩ := applyCommits_preserve rest _ e.x e.y _ hstep
      rw [h] at hc'
      obtain rfl : cell = cell' := by simpa using hc'
      exact ⟨e, by rw [List.find?_cons_of_pos _ (by simp)], by simpa using hfirst⟩
    · have hstep := insert_pixel_canvas_ne st e.id e.user_pk e.x e.y e.color e.placed_at x y hm
      obtain ⟨a, ha, hfa⟩ := ih _ x y cell (hstep.trans h0) h
      refine ⟨a, ?_, hfa⟩
      rw [List.find?_cons_of_neg _ (by simpa using fun hx hy => hm ⟨hx.symm, hy.symm⟩), ha]

/-- C3: a `commit_pixel` on an existing cell returns
`was_newly_overwritten = true` iff the prior `was_overwritten` was 0 and
the prior `first_user_pk` differs from the committing user; the stored
flag is non-zero afterwards iff it was non-zero before or the commit was
newly overwriting; and once non-zero it stays non-zero under every later
sequence of commits. -/
theorem claim_c3_overwrite_flag (st : StoreState) (id u : String)
    (x y c : Nat) (t : Int) (cell : CellData)
    (h : st.canvas x y = some cell) :
    ((insert_pixel st id u x y c t).2.2 = true
      ↔ (cell.was_overwritten = 0 ∧ cell.first_user_pk ≠ u))
    ∧ (∃ cell', (insert_pixel st id u x y c t).1.canvas x y = some cell'
        ∧ (cell'.was_overwritten ≠ 0
            ↔ (cell.was_overwritten ≠ 0 ∨ (insert_pixel st id u x y c t).2.2 = true))
        ∧ ∀ l : List Commit, cell'.was_overwritten ≠ 0 →
            ∃ cell'', (applyCommits (insert_pixel st id u x y c t).1 l).canvas x y
                = some cell'' ∧ cell''.was_overwritten ≠ 0) := by
  have hsnd : (insert_pixel st id u x y c t).2.2
      = (cell.was_overwritten == 0 && cell.first_user_pk != u) := by
    unfold insert_pixel
    rw [h]
  constructor
  · rw [hsnd]
    simp [Bool.and_eq_true, beq_iff_eq, bne_iff_ne]
  · refine ⟨_, insert_pixel_canvas_upd st id u x y c t cell h, ?_, ?_⟩
    · rw [hsnd]
      by_cases h0 : cell.was_overwritten = 0 <;>
        by_cases hfu : cell.first_user_pk = u <;>
          simp [h0, hfu]
    · intro l hnz
      exact applyCommits_preserve l _ x y _
        (insert_pixel_canvas_upd st id u x y c t cell h) |>.imp
        fun cell'' ⟨hc, _, how⟩ => ⟨hc, how (by simpa using hnz)⟩

theorem claim_c3_overwrite_flag_witness :
    ((insert_pixel
        ⟨[], fun a b => if a = 1 ∧ b = 2 then some ⟨5, "alice", "alice", 10, 0⟩ else none⟩
        "e2" "bob" 1 2 7 20).2.2 = true
      ↔ ((0 : Nat) = 0 ∧ ("alice" : String) ≠ "bob")) :=
  (claim_c3_overwrite_flag
    ⟨[], fun a b => if a = 1 ∧ b = 2 then some ⟨5, "alice", "alice", 10, 0⟩ else none⟩
    "e2" "bob" 1 2 7 20 ⟨5, "alice", "alice", 10, 0⟩ (by decide)).1

/-- C4: a `commit_pixel` on an existing cell rewrites exactly the fields
`color`, `user_pk`, `placed_at` and `was_overwritten`, keeping
`first_user_pk`; consequently, starting from the empty store, any cell
produced by a sequence of commits carries the author of the first commit
at its coordinate as `first_user_pk`. -/
theorem claim_c4_first_author :
    (∀ (st : StoreState) (id u : String) (x y c : Nat) (t : Int) (cell : CellData),
      st.canvas x y = some cell →
      ∃ ow, (insert_pixel st id u x y c t).1.canvas x y
        = some ⟨c, u, cell.first_user_pk, t, ow⟩)
    ∧ (∀ (l : List Commit) (x y : Nat) (cell : CellData),
      (applyCommits emptyStore l).canvas x y = some cell →
      ∃ e, l.find? (fun e => e.x == x && e.y == y) = some e
        ∧ cell.first_user_pk = e.user_pk) := by
  constructor
  · intro st id u x y c t cell h
    exact ⟨_, insert_pixel_canvas_upd st id u x y c t cell h⟩
  · intro l x y cell h
    exact applyCommits_first_author l emptyStore x y cell rfl h

theorem claim_c4_first_author_witness :
    (applyCommits emptyStore
        [⟨"e1", "alice", 1, 2, 5, 10⟩, ⟨"e2", "bob", 1, 2, 7, 20⟩]).canvas 1 2
      = some ⟨7, "bob", "alice", 20, 1⟩
    ∧ (⟨7, "bob", "alice", 20, 1⟩ : CellData).first_user_pk
        = (⟨"e1", "alice", 1, 2, 5, 10⟩ : Commit).user_pk := by
  refine ⟨by decide, ?_⟩
  obtain ⟨e, he, hfa⟩ := claim_c4_first_author.2
    [⟨"e1", "alice", 1, 2, 5, 10⟩, ⟨"e2", "bob", 1, 2, 7, 20⟩] 1 2
    ⟨7, "bob", "alice", 20, 1⟩ (by decide)
  have hE : some e = some (⟨"e1", "alice", 1, 2, 5, 10⟩ : Commit) := by
    rw [← he]
    decide
  obtain rfl := Option.some.inj hE
  exact hfa

/-- C1: given that the event reaches the credit check (not a duplicate,
ID decodes to `T`, timestamp valid, fetch/decode produced a payload, and
payload validation passed), the pipeline fails `NoCredits` iff the count
of the author's committed events with
`placed_at ∈ (T - regen_window_us, T]` is at least `max_credits`; and the
outcome is the same for every wall-clock `now` that passes timestamp
validation — the window is anchored at the event's own `T`. -/
theorem claim_c1_no_credits (st : StoreState) (cfg : Config)
    (vf : CanvaPixel → Int → Except ValidateError Unit)
    (fetched : Except ProcErr CanvaPixel) (user_pk pixel_id : String)
    (now T : Int) (pixel : CanvaPixel)
    (h1 : pixel_event_exists st.pixel_events pixel_id = false)
    (h2 : parse_timestamp_id pixel_id = some T)
    (h3 : validate_timestamp T now = .ok ())
    (h4 : fetched = .ok pixel)
    (h5 : vf pixel T = .ok ()) :
    (process_pixel_event st cfg vf fetched user_pk pixel_id now = .error .noCredits
      ↔ cfg.max_credits ≤ count_recent_placements st.pixel_events user_pk T
          ((cfg.credit_regen_seconds : Int) * 1000000))
    ∧ ∀ now' : Int, validate_timestamp T now' = .ok () →
        process_pixel_event st cfg vf fetched user_pk pixel_id now'
          = process_pixel_event st cfg vf fetched user_pk pixel_id now := by
  subst h4
  have hred : ∀ n : Int, validate_timestamp T n = .ok () →
      process_pixel_event st cfg vf (.ok pixel) user_pk pixel_id n
        = if cfg.max_credits ≤ count_recent_placements st.pixel_events user_pk T
              ((cfg.credit_regen_seconds : Int) * 1000000)
          then .error .noCredits
          else .ok (insert_pixel st pixel_id user_pk pixel.x pixel.y pixel.color T).1 := by
    intro n hn
    simp only [process_pixel_event, h1, h2, hn, h5, Bool.false_eq_true, if_false, ge_iff_le]
  constructor
  · rw [hred now h3]
    by_cases hc : cfg.max_credits ≤ count_recent_placements st.pixel_events user_pk T
        ((cfg.credit_regen_seconds : Int) * 1000000)
    · simp [hc]
    · simp [hc]
  · intro now' h'
    rw [hred now' h', hred now h3]

theorem claim_c1_no_credits_witness :
    pixel_event_exists emptyStore.pixel_events "1000000000000" = false
    ∧ parse_timestamp_id "1000000000000" = some 1152921504606846976
    ∧ validate_timestamp 1152921504606846976 1152921504606846976 = .ok ()
    ∧ (process_pixel_event emptyStore ⟨0, 60⟩ (fun _ _ => .ok ()) (.ok ⟨0, 0, 0⟩)
        "alice" "1000000000000" 1152921504606846976 = .error .noCredits
      ↔ (⟨0, 60⟩ : Config).max_credits ≤ count_recent_placements
          emptyStore.pixel_events "alice" 1152921504606846976
          (((⟨0, 60⟩ : Config).credit_regen_seconds : Int) * 1000000)) :=
  ⟨by decide, by decide, by decide,
    (claim_c1_no_credits emptyStore ⟨0, 60⟩ (fun _ _ => .ok ()) (.ok ⟨0, 0, 0⟩)
      "alice" "1000000000000" 1152921504606846976 1152921504606846976 ⟨0, 0, 0⟩
      (by decide) (by decide) (by decide) rfl rfl).1⟩

theorem except_match_const {α : Sort 1} (e : Except ProcErr Unit) (r : α) :
    (match e with | .ok _ => r | .error _ => r) = r := by
  cases e <;> rfl

theorem poll_step_proc_irrel (proc1 proc2 : String → String → Except ProcErr Unit)
    (users : List (String × String)) (cursors : String → String)
    (ev : SseEventParsed) :
    poll_events_step proc1 users cursors ev
      = poll_events_step proc2 users cursors ev := by
  unfold poll_events_step
  split
  · rfl
  · split
    · rfl
    · split
      · exact (except_match_const _ _).trans (except_match_const _ _).symm
      · rfl

/-- C6, counterexample: an event whose processing fails with a State Store
error (the dedupe lookup or the commit propagating `Err`) still has the
user's cursor advanced to the event's non-empty cursor value — the source
advances the cursor after every per-event outcome, so the claimed
"abort without advancing" does not hold. -/
theorem claim_c6_cursor_counterexample :
    poll_events_step (fun _ _ => .error .storeUnavailable) [("alice", "")]
        (fun _ => "")
        ⟨"PUT", "pubky://alice/pub/pubky-canva/pixels/0000000000001", "42"⟩
        "alice" = "42"
    ∧ ("42" : String) ≠ "" := ⟨by decide, by decide⟩

/-- C6, amended: the cursors resulting from a homeserver poll are
independent of the per-event processing results (in particular State Store
failures inside the dedupe check or the commit do not suppress the
update), and every processed event advances its user's cursor to the
event's cursor value exactly when that value is non-empty. -/
theorem claim_c6_cursor_advance :
    (∀ (proc1 proc2 : String → String → Except ProcErr Unit)
        (users : List (String × String)) (events : List SseEventParsed)
        (cursors : String → String),
      poll_homeserver_cursors proc1 users events cursors
        = poll_homeserver_cursors proc2 users events cursors)
    ∧ (∀ (proc : String → String → Except ProcErr Unit)
        (users : List (String × String)) (cursors : String → String)
        (ev : SseEventParsed) (u pid : String),
      ev.event_type = "PUT" → parse_pixel_uri ev.uri = some (u, pid) →
      users.any (fun p => p.1 == u) = true →
      poll_events_step proc users cursors ev
        = if ev.cursor ≠ "" then update_user_cursor cursors u ev.cursor
          else cursors) := by
  constructor
  · intro proc1 proc2 users events cursors
    unfold poll_homeserver_cursors
    induction events generalizing cursors with
    | nil => rfl
    | cons ev evs ih =>
      simp only [List.foldl_cons]
      rw [poll_step_proc_irrel proc1 proc2 users cursors ev]
      exact ih _
  · intro proc users cursors ev u pid ht hp hu
    unfold poll_events_step
    simp only [ht, hp, hu, ne_eq, not_true_eq_false, if_false, if_true]
    cases proc u pid <;> rfl

theorem claim_c6_cursor_advance_witness :
    poll_events_step (fun _ _ => .ok ()) [("alice", "")] (fun _ => "c0")
        ⟨"PUT", "pubky://alice/pub/pubky-canva/pixels/0000000000001", "42"⟩
      = (if ("42" : String) ≠ ""
         then update_user_cursor (fun _ => "c0") "alice" "42"
         else (fun _ => "c0")) :=
  claim_c6_cursor_advance.2 (fun _ _ => .ok ()) [("alice", "")] (fun _ => "c0")
    ⟨"PUT", "pubky://alice/pub/pubky-canva/pixels/0000000000001", "42"⟩
    "alice" "0000000000001" rfl (by decide) (by decide)

/-- C7: `insert_pixel` runs its two table writes as separate auto-commit
statements with no enclosing transaction; when the `canvas_state` write
(statement 2) fails after the `pixel_events` insert (statement 0)
succeeded, the call returns an error with the `pixel_events` row already
committed and no canvas cell created — the two writes are not atomic. -/
theorem claim_c7_partial_commit :
    (insert_pixel_sql (fun n => n == 2) emptyStore "id1" "alice" 1 2 3 100).2
      = .error ()
    ∧ pixel_event_exists
        (insert_pixel_sql (fun n => n == 2) emptyStore "id1" "alice" 1 2 3 100).1.pixel_events
        "id1" = true
    ∧ (insert_pixel_sql (fun n => n == 2) emptyStore "id1" "alice" 1 2 3 100).1.canvas 1 2
      = none := ⟨by decide, by decide, by decide⟩

/-- C8: a poll cycle appends a resize record iff `filled ≥ W·H` and
`overwritten ≥ ⌊W·H/2⌋`; when it does, the appended dimensions are
`(2W, H)` for a square canvas and `(W, 2H)` otherwise; and a cycle appends
at most one record. -/
theorem claim_c8_resize (W H filled overwritten : Nat) (now : Int)
    (history : List (Nat × Nat × Int)) :
    (check_resize_cycle W H filled overwritten now history ≠ history
      ↔ (filled ≥ W * H ∧ overwritten ≥ W * H / 2))
    ∧ (filled ≥ W * H → overwritten ≥ W * H / 2 →
        check_resize_cycle W H filled overwritten now history
          = history ++ [if W = H then (W * 2, H, now) else (W, H * 2, now)])
    ∧ (check_resize_cycle W H filled overwritten now history).length
        ≤ history.length + 1 := by
  by_cases hc : filled ≥ W * H ∧ overwritten ≥ W * H / 2
  · have hcycle : check_resize_cycle W H filled overwritten now history
        = history ++ [if W = H then (W * 2, H, now) else (W, H * 2, now)] := by
      by_cases hWH : W = H
      · have hcr : check_resize W H filled overwritten = some (W * 2, H) := by
          simp only [check_resize]
          rw [if_pos hc, if_pos hWH]
        simp only [check_resize_cycle, hcr, if_pos hWH]
      · have hcr : check_resize W H filled overwritten = some (W, H * 2) := by
          simp only [check_resize]
          rw [if_pos hc, if_neg hWH]
        simp only [check_resize_cycle, hcr, if_neg hWH]
    refine ⟨iff_of_true (by simp [hcycle]) hc, fun _ _ => hcycle, by simp [hcycle]⟩
  · have hcycle : check_resize_cycle W H filled overwritten now history = history := by
      have hcr : check_resize W H filled overwritten = none := by
        simp only [check_resize]
        rw [if_neg hc]
      simp only [check_resize_cycle, hcr]
    refine ⟨iff_of_false (by simp [hcycle]) hc,
      fun ha hb => absurd ⟨ha, hb⟩ hc, by simp [hcycle]⟩

theorem claim_c8_resize_witness :
    (256 : Nat) ≥ 16 * 16 ∧ (128 : Nat) ≥ 16 * 16 / 2
    ∧ check_resize_cycle 16 16 256 128 5 [(16, 16, 0)]
        = [(16, 16, 0), (16 * 2, 16, 5)] := by
  refine ⟨by decide, by decide, ?_⟩
  have h := (claim_c8_resize 16 16 256 128 5 [(16, 16, 0)]).2.1 (by decide) (by decide)
  simpa using h

end PubkyCanva
